import Mathlib

/-!
Shallow embedding of `bin/vault_audit_k8s_auth_analysis.py`: record model,
classification predicates (`is_k8s_login`, `status_ok`), label extraction
(`extract_sa_label`), the streaming per-mount aggregation loop of
`analyze_ephemeral_entity_churn`, and the distribution diagnostics
(singleton ratio, nearest-rank p95, anomaly flags).

Python dictionaries probed by the script are modelled as structures whose
fields carry `Option` for keys that may be absent; Python `Counter` and
`defaultdict(set)` become total functions `String → Nat` / `String → Finset
String` with 0 / ∅ standing for an absent key (the script only ever adds,
so a key is present exactly when its value is non-zero / non-empty).
Floating-point arithmetic of the script (0.95 * (n-1), singletons/len) is
modelled over ℚ; for the magnitudes reachable here (counts far below 2^50)
IEEE double evaluation of those expressions is exact enough that the
comparisons in the script coincide with the exact rational ones, and
Python's `round` (ties to even) is modelled exactly by `pyRound`.
-/

namespace VaultChurn

/-- Python truthiness-based `a or b` on strings: `b` if `a` is empty. -/
def pyOr (a b : String) : String := if a = "" then b else a

/-- Whitespace-stripping on both ends of a character list. -/
def trimChars (l : List Char) : List Char :=
  ((l.dropWhile Char.isWhitespace).reverse.dropWhile Char.isWhitespace).reverse

/-- Python `s.strip()`: drop leading and trailing whitespace. -/
def pyStrip (s : String) : String := ⟨trimChars s.toList⟩

/-- Value found under the `error` key of an audit record: the key may be
absent (or JSON null), hold a boolean, or hold a string. The script tests
`entry.get('error') not in (None, False, '')`. -/
inductive ErrField
  | absent
  | boolVal (b : Bool)
  | strVal (s : String)
  deriving DecidableEq

/-- `entry.get('error') in (None, False, '')`: no error signal recorded. -/
def errOk : ErrField → Bool
  | .absent => true
  | .boolVal b => !b
  | .strVal s => s == ""

/-- A value found under `response.status` / `response.http_status`: a JSON
number (modelled as an integer) or a string that `int()` may parse. -/
inductive StatusV
  | intV (n : Int)
  | strV (s : String)
  deriving DecidableEq

/-- Digit-string to value, `none` unless the list is non-empty and all digits. -/
def digitsVal (l : List Char) : Option Nat :=
  match l with
  | [] => none
  | _ => if l.all Char.isDigit then
      some (l.foldl (fun a c => a * 10 + (c.toNat - '0'.toNat)) 0)
    else none

/-- Python `int(s)` on a string: optional surrounding whitespace, optional
sign, decimal digits; anything else raises (here: `none`). -/
def pyToInt (s : String) : Option Int :=
  match (pyStrip s).toList with
  | [] => none
  | c :: rest =>
    if c == '-' then (digitsVal rest).map (fun n => -(n : Int))
    else if c == '+' then (digitsVal rest).map (fun n => (n : Int))
    else (digitsVal (c :: rest)).map (fun n => (n : Int))

/-- Python `int(st)` on a status value. -/
def statusToInt : StatusV → Option Int
  | .intV n => some n
  | .strV s => pyToInt s

/-- `auth.metadata` keys probed by `extract_sa_label`. -/
structure AuthMd where
  service_account_name : Option String
  service_account_namespace : Option String
  kubernetes_namespace : Option String
  namespace_ : Option String
  deriving DecidableEq

/-- `auth` sub-object: entity id, metadata, display name. -/
structure AuthInfo where
  entity_id : Option String
  metadata : AuthMd
  display_name : Option String
  deriving DecidableEq

/-- `request` sub-object fields read by the script (absent `request`
collapses to all-absent fields, as `entry.get('request') or {}` does). -/
structure ReqInfo where
  path : String
  mount_type : Option String
  mount_accessor : Option String
  deriving DecidableEq

/-- `response` sub-object: `status` and `http_status`. -/
structure RespInfo where
  status : Option StatusV
  http_status : Option StatusV
  deriving DecidableEq

/-- A parsed audit record, restricted to the fields the script reads. -/
structure Entry where
  type_ : String
  error : ErrField
  response : RespInfo
  request : ReqInfo
  auth : AuthInfo
  deriving DecidableEq

/-- `TRAILING_SLASH_RE.sub('', p)` on the character list: remove the
trailing run of `'/'`. -/
def stripTrailingSlashes (l : List Char) : List Char :=
  (l.reverse.dropWhile (fun c => c == '/')).reverse

/-- `norm_path`: `'' if not p else TRAILING_SLASH_RE.sub('', p)`. -/
def norm_path (p : String) : String := ⟨stripTrailingSlashes p.toList⟩

/-- Executable prefix test on character lists. -/
def isPre : List Char → List Char → Bool
  | [], _ => true
  | _ :: _, [] => false
  | a :: as, b :: bs => a == b && isPre as bs

/-- Executable contiguous-substring test (`needle in hay` for Python strings). -/
def hasSub (needle : List Char) : List Char → Bool
  | [] => needle.isEmpty
  | c :: rest => isPre needle (c :: rest) || hasSub needle rest

/-- `w in p` for strings. -/
def strHasSub (needle hay : String) : Bool := hasSub needle.toList hay.toList

/-- `s` ends with `suf`. `LOGIN_TAIL_RE = /+login$` matches a string iff the
string ends with the six characters `"/login"` (the regex consumes the last
slash of the run plus `login`), so the script's tail test is this with
`suf := "/login"`. -/
def strEndsWith (suf s : String) : Bool := isPre suf.toList.reverse s.toList.reverse

/-- `K8S_WORDS = ('kubernetes', 'openshift')`. -/
def K8S_WORDS : List String := ["kubernetes", "openshift"]

/-- `is_k8s_login(path, mount_type)` from the script. -/
def is_k8s_login (path : String) (mount_type : Option String) : Bool :=
  let p := norm_path path
  if p == "" then false
  else if strEndsWith "/login" p && K8S_WORDS.any (fun w => strHasSub w p) then true
  else if strEndsWith "/login" p
      && (mount_type == some "kubernetes" || mount_type == some "openshift") then true
  else false

/-- `resp.get('status', resp.get('http_status'))` under the record model:
the `status` value when present, else the `http_status` value. -/
def respStatus (e : Entry) : Option StatusV :=
  match e.response.status with
  | some v => some v
  | none => e.response.http_status

/-- `status_ok(entry)` from the script. -/
def status_ok (e : Entry) : Bool :=
  if e.type_ ≠ "response" then false
  else if !(errOk e.error) then false
  else
    match respStatus e with
    | none => true
    | some v =>
      match statusToInt v with
      | some n => n == 200
      | none => false

/-- `(md.get('service_account_name') or '').strip()`. -/
def saOf (e : Entry) : String := pyStrip (e.auth.metadata.service_account_name.getD "")

/-- `(md.get('service_account_namespace') or md.get('kubernetes_namespace')
or md.get('namespace') or '').strip()`. -/
def nsOf (e : Entry) : String :=
  pyStrip (pyOr (pyOr (e.auth.metadata.service_account_namespace.getD "")
      (e.auth.metadata.kubernetes_namespace.getD ""))
    (e.auth.metadata.namespace_.getD ""))

/-- `(safe_get(entry, 'auth', 'display_name', default='') or '').strip()`. -/
def dispOf (e : Entry) : String := pyStrip (e.auth.display_name.getD "")

/-- `extract_sa_label(entry)` from the script. -/
def extract_sa_label (e : Entry) : Option String :=
  if saOf e = "" ∧ nsOf e = "" then
    if dispOf e = "" then none
    else some ("(no-ns)/" ++ dispOf e)
  else some ((if nsOf e = "" then "(no-ns)" else nsOf e) ++ "/"
      ++ (if saOf e = "" then "(no-sa)" else saOf e))

/-- First character position of `'{'` onward, as `JSON_START_RE = (\{.*)`
finds it: the suffix of the line starting at the first `'{'` (audit lines
carry no embedded newline once stripped, so `.*` runs to the end), `none`
when the line has no `'{'`. -/
def firstBraceSuffix (s : String) : Option String :=
  match s.toList.dropWhile (fun c => !(c == '{')) with
  | [] => none
  | l => some ⟨l⟩

/-- `coerce_json(line)`: find the JSON object start and decode from there.
The JSON decoder itself is the external `json.loads`, abstracted as a
`loads` function returning `none` on a decode error; `coerce_json` raises
(here: `none`) when no object start exists. -/
def coerce_json (loads : String → Option Entry) (s : String) : Option Entry :=
  match firstBraceSuffix s with
  | none => none
  | some suf => loads suf

/-- One per-mount aggregation bucket of `analyze_ephemeral_entity_churn`.
`per_entity_logins` / `per_sa_logins` are `Counter`s (0 = absent key) and
`per_sa_entities` a `defaultdict(set)` (∅ = absent key). -/
structure Bucket where
  display_mount : Option String
  ok_count : Nat
  fail_count : Nat
  entity_ids : Finset String
  per_entity_logins : String → Nat
  per_sa_logins : String → Nat
  per_sa_entities : String → Finset String

/-- The `totals` dict of the analysis loop. -/
structure Totals where
  lines : Nat
  parsed : Nat
  skipped : Nat
  responses : Nat
  k8s_ok : Nat
  deriving DecidableEq

/-- Whole aggregation state: totals plus the `mounts` table keyed by
accessor (a fresh key maps to the default bucket). -/
structure AggState where
  totals : Totals
  mounts : String → Bucket

/-- The default bucket a fresh `mounts[accessor]` access creates. -/
def emptyBucket : Bucket :=
  ⟨none, 0, 0, ∅, fun _ => 0, fun _ => 0, fun _ => ∅⟩

/-- Initial loop state: zero totals, no buckets. -/
def initState : AggState :=
  ⟨⟨0, 0, 0, 0, 0⟩, fun _ => emptyBucket⟩

/-- `splitFirst sep l`: split `l` at the leftmost occurrence of `sep`,
returning the parts before and after, `none` when `sep` does not occur. -/
def splitFirst (sep : List Char) : List Char → Option (List Char × List Char)
  | [] => if sep.isEmpty then some ([], []) else none
  | c :: rest =>
    if isPre sep (c :: rest) then some ([], (c :: rest).drop sep.length)
    else (splitFirst sep rest).map (fun pr => (c :: pr.1, pr.2))

/-- `p.rsplit(sep, 1)[0]`: everything before the rightmost occurrence of
`sep`, or `p` itself when `sep` does not occur — computed by locating the
leftmost occurrence of the reversed separator in the reversed string. -/
def rsplitHead (sep p : String) : String :=
  match splitFirst sep.toList.reverse p.toList.reverse with
  | none => p
  | some pr => ⟨pr.2.reverse⟩

/-- `safe_get(entry, 'auth', 'entity_id')` followed by the loop's `if eid:`
truthiness test: an entity id counts only when present and non-empty. -/
def entityIdOf (e : Entry) : Option String :=
  match e.auth.entity_id with
  | none => none
  | some s => if s = "" then none else some s

/-- `accessor = req.get('mount_accessor') or path.rsplit('/login', 1)[0]`
(with `path` already normalized). -/
def mountKey (e : Entry) : String :=
  pyOr (e.request.mount_accessor.getD "")
    (rsplitHead "/login" (norm_path e.request.path))

/-- `disp_mount = path.rsplit('/login', 1)[0] or '(unknown-mount)'`. -/
def dispMount (e : Entry) : String :=
  pyOr (rsplitHead "/login" (norm_path e.request.path)) "(unknown-mount)"

/-- Keep-first display-label choice: `if bucket['display_mount'] is None:
bucket['display_mount'] = disp_mount`, and the label a merge retains. -/
def dispKeep : Option String → Option String → Option String
  | some d, _ => some d
  | none, o => o

/-- `counter[k] += 1` on a `Counter` modelled as a total function. -/
def incAt (f : String → Nat) (k : String) : String → Nat :=
  Function.update f k (f k + 1)

/-- `d[k].add(i)` on a `defaultdict(set)` modelled as a total function. -/
def insAt (g : String → Finset String) (k : String) (i : String) :
    String → Finset String :=
  Function.update g k (insert i (g k))

/-- The successful-login bucket update of the loop (lines 168-182 of the
script): bump `ok_count`, record the entity id when present, record the
service-account label when present, and tie the entity to the label when
both are present. -/
def succUpdate (e : Entry) (b : Bucket) : Bucket :=
  let b1 := { b with ok_count := b.ok_count + 1 }
  let b2 :=
    match entityIdOf e with
    | none => b1
    | some i =>
      { b1 with entity_ids := insert i b1.entity_ids,
                per_entity_logins := incAt b1.per_entity_logins i }
  match extract_sa_label e with
  | none => b2
  | some sa =>
    let b3 := { b2 with per_sa_logins := incAt b2.per_sa_logins sa }
    match entityIdOf e with
    | none => b3
    | some i => { b3 with per_sa_entities := insAt b3.per_sa_entities sa i }

/-- The whole per-record bucket mutation: fix the display label on first
observation, then apply the success or the failure branch. -/
def updBucket (e : Entry) (b : Bucket) : Bucket :=
  let b1 := { b with display_mount := dispKeep b.display_mount (some (dispMount e)) }
  if status_ok e then succUpdate e b1
  else { b1 with fail_count := b1.fail_count + 1 }

/-- One iteration of the analysis loop on a decoded line: `none` is a line
`coerce_json` rejected (skip counter), `some e` a parsed record that is
filtered by `is_k8s_login` and folded into its mount bucket. -/
def processEntry (st : AggState) (pe : Option Entry) : AggState :=
  match pe with
  | none =>
    { st with totals := { st.totals with
        lines := st.totals.lines + 1, skipped := st.totals.skipped + 1 } }
  | some e =>
    let t1 := { st.totals with
        lines := st.totals.lines + 1, parsed := st.totals.parsed + 1,
        responses := st.totals.responses + (if e.type_ = "response" then 1 else 0) }
    if is_k8s_login (norm_path e.request.path) e.request.mount_type then
      let t2 := if status_ok e then { t1 with k8s_ok := t1.k8s_ok + 1 } else t1
      { totals := t2,
        mounts := Function.update st.mounts (mountKey e)
          (updBucket e (st.mounts (mountKey e))) }
    else { st with totals := t1 }

/-- One raw input line: strip, locate the JSON object, decode, aggregate. -/
def processLine (loads : String → Option Entry) (st : AggState) (s : String) :
    AggState :=
  processEntry st (coerce_json loads (pyStrip s))

/-- The whole streaming pass over a list of decoded lines. -/
def run (l : List (Option Entry)) : AggState := l.foldl processEntry initState

/-- The whole streaming pass over raw text lines. -/
def runLines (loads : String → Option Entry) (ls : List String) : AggState :=
  ls.foldl (processLine loads) initState

/-! ### Merging partial aggregates (count-sum / set-union semantics) -/

/-- Key-by-key bucket merge: counts add, sets unite, the left (earlier)
display label wins when present. -/
def mergeBucket (a b : Bucket) : Bucket where
  display_mount := dispKeep a.display_mount b.display_mount
  ok_count := a.ok_count + b.ok_count
  fail_count := a.fail_count + b.fail_count
  entity_ids := a.entity_ids ∪ b.entity_ids
  per_entity_logins := fun x => a.per_entity_logins x + b.per_entity_logins x
  per_sa_logins := fun x => a.per_sa_logins x + b.per_sa_logins x
  per_sa_entities := fun x => a.per_sa_entities x ∪ b.per_sa_entities x

/-- Fieldwise sum of the observability counters. -/
def mergeTotals (a b : Totals) : Totals :=
  ⟨a.lines + b.lines, a.parsed + b.parsed, a.skipped + b.skipped,
    a.responses + b.responses, a.k8s_ok + b.k8s_ok⟩

/-- Merge two partial aggregation states key by key. -/
def mergeState (s t : AggState) : AggState :=
  ⟨mergeTotals s.totals t.totals, fun k => mergeBucket (s.mounts k) (t.mounts k)⟩

/-- Merge a list of partial states, left to right. -/
def mergeList (l : List AggState) : AggState := l.foldr mergeState initState

/-- The per-key observables named by the merge property: success and
failure counts, the entity-id set, the per-entity login counts, the
per-label login counts and per-label entity sets (the display label, a
presentation detail, is not among them). -/
def BucketObs (a b : Bucket) : Prop :=
  a.ok_count = b.ok_count ∧ a.fail_count = b.fail_count ∧
  a.entity_ids = b.entity_ids ∧ a.per_entity_logins = b.per_entity_logins ∧
  a.per_sa_logins = b.per_sa_logins ∧ a.per_sa_entities = b.per_sa_entities

/-! ### Distribution diagnostics (script section 4) -/

/-- `ENTITY_LOGIN_THRESHOLD = 200`. -/
def ENTITY_LOGIN_THRESHOLD : Nat := 200

/-- `SA_ENTITY_THRESHOLD = 50`. -/
def SA_ENTITY_THRESHOLD : Nat := 50

/-- `SINGLETON_RATIO_THRESHOLD = 0.80` (exactly 4/5 over ℚ; the script's
comparisons against it are exact at every reachable ratio). -/
def SINGLETON_RATIO_THRESHOLD : ℚ := 0.80

/-- `P95_LOGIN_THRESHOLD = 10`. -/
def P95_LOGIN_THRESHOLD : Nat := 10

/-- `TOP_N = 15`. -/
def TOP_N : Nat := 15

/-- `counts = [b['per_entity_logins'][eid] for eid in ents if eid in
b['per_entity_logins']]`: one login count per recorded entity of the
label. Python set iteration order is unspecified, so the list is
determined only up to permutation — a multiset. -/
def diagCounts (b : Bucket) (sa : String) : Multiset Nat :=
  (b.per_sa_entities sa).val.filterMap
    (fun e => if b.per_entity_logins e = 0 then none
      else some (b.per_entity_logins e))

/-- Python 3 `round` on an exact value: nearest integer, ties to even. -/
def pyRound (q : ℚ) : ℤ :=
  if q - ⌊q⌋ < 1/2 then ⌊q⌋
  else if 1/2 < q - ⌊q⌋ then ⌊q⌋ + 1
  else if ⌊q⌋ % 2 = 0 then ⌊q⌋ else ⌊q⌋ + 1

/-- `idx = max(0, min(len - 1, int(round(0.95 * (len - 1)))))`. The float
product `0.95 * (len - 1)` either rounds to the exact half-integer (when
`19(len-1)/20` is one) or stays well clear of every tie boundary, so the
exact rational 0.95·(n−1) with ties-to-even reproduces it. -/
def p95Idx (n : Nat) : Nat :=
  (max 0 (min ((n : ℤ) - 1) (pyRound ((0.95 : ℚ) * ((n : ℚ) - 1))))).toNat

/-- `counts_sorted = sorted(counts); p95 = counts_sorted[idx]` — the
nearest-rank percentile of a list of login counts. -/
def p95 (counts : List Nat) : Nat :=
  (List.insertionSort (· ≤ ·) counts).getD (p95Idx counts.length) 0

/-- The concrete ascending ordering the diagnostics pass works on. -/
def saSortedCounts (b : Bucket) (sa : String) : List Nat :=
  (diagCounts b sa).sort (· ≤ ·)

/-- `len(counts)`: entities of the label with a recorded login count. -/
def saEntityCount (b : Bucket) (sa : String) : Nat := (diagCounts b sa).card

/-- `singletons = sum(1 for x in counts if x == 1)`. -/
def saSingletons (b : Bucket) (sa : String) : Nat :=
  Multiset.countP (fun x => x = 1) (diagCounts b sa)

/-- `singleton_ratio = singletons / len(counts)`. -/
def saRatio (b : Bucket) (sa : String) : ℚ :=
  (saSingletons b sa : ℚ) / (saEntityCount b sa : ℚ)

/-- The p95 statistic of the label's login counts. -/
def saP95 (b : Bucket) (sa : String) : Nat := p95 (saSortedCounts b sa)

/-- One emitted diagnostics row. -/
structure DiagRow where
  entities : Nat
  singletons : Nat
  singleton_ratio : ℚ
  p95value : Nat
  flags : List String

/-- The diagnostics pass for one (mount bucket, workload label) pair:
skip when no entity of the label has a recorded count (`if not counts:
continue`), evaluate both flags independently, and surface the row only
when at least one flag fired (`if len(offenders) == 0: continue`). -/
def diagRow (b : Bucket) (sa : String) : Option DiagRow :=
  if diagCounts b sa = 0 then none
  else
    let offenders :=
      (if SINGLETON_RATIO_THRESHOLD ≤ saRatio b sa then ["SINGLETON_HEAVY"] else [])
        ++ (if P95_LOGIN_THRESHOLD ≤ saP95 b sa then ["HIGH_P95"] else [])
    if offenders = [] then none
    else some ⟨saEntityCount b sa, saSingletons b sa, saRatio b sa,
      saP95 b sa, offenders⟩

/-! ### Concrete records for the test scenarios -/

/-- Empty `auth.metadata`. -/
def mdNone : AuthMd := ⟨none, none, none, none⟩

/-- The request object shared by the scenario records: a kubernetes login
path with a stable mount accessor. -/
def scenReq : ReqInfo := ⟨"auth/kubernetes/login", some "kubernetes", some "accK"⟩

/-- A failed login attempt: the request half of the pair (type
`request`), which the success predicate rejects. -/
def scenFail : Entry := ⟨"request", .absent, ⟨none, none⟩, scenReq, ⟨none, mdNone, none⟩⟩

/-- A successful login response with the given (possibly absent) entity id. -/
def scenOk (eid : Option String) : Entry :=
  ⟨"response", .absent, ⟨some (.intV 200), none⟩, scenReq, ⟨eid, mdNone, none⟩⟩

/-- 5 failed and 5 successful login attempts on one mount, 3 of the
successes missing `entity_id`. -/
def scenario : List (Option Entry) :=
  [some scenFail, some scenFail, some scenFail, some scenFail, some scenFail,
    some (scenOk none), some (scenOk none), some (scenOk none),
    some (scenOk (some "entityA")), some (scenOk (some "entityB"))]

/-- The state invariant of C5: in every bucket, every entity id with a
recorded login count is a member of the entity-id set, and the success
count dominates the sum of the recorded per-entity login counts. -/
def Inv (st : AggState) : Prop :=
  ∀ k : String,
    (∀ i, (st.mounts k).per_entity_logins i ≠ 0 → i ∈ (st.mounts k).entity_ids)
    ∧ Finset.sum (st.mounts k).entity_ids (st.mounts k).per_entity_logins
        ≤ (st.mounts k).ok_count

attribute [ext] Totals Bucket AggState

/-! ### String lemmas for the classifier -/

lemma isPre_iff (n : List Char) : ∀ h : List Char, isPre n h = true ↔ ∃ t, h = n ++ t := by
  induction n with
  | nil => intro h; simp [isPre]
  | cons a as ih =>
    intro h
    cases h with
    | nil => simp [isPre]
    | cons b bs =>
      simp only [isPre, Bool.and_eq_true, beq_iff_eq, ih]
      constructor
      · rintro ⟨rfl, t, rfl⟩; exact ⟨t, rfl⟩
      · rintro ⟨t, ht⟩
        rw [List.cons_append] at ht
        obtain ⟨rfl, rfl⟩ := List.cons.injEq .. ▸ ht
        exact ⟨rfl, t, by simp_all⟩

lemma hasSub_iff (n : List Char) : ∀ h : List Char,
    hasSub n h = true ↔ ∃ a b, h = a ++ n ++ b := by
  intro h
  induction h with
  | nil =>
    simp only [hasSub, List.isEmpty_iff]
    constructor
    · rintro rfl; exact ⟨[], [], rfl⟩
    · rintro ⟨a, b, hab⟩
      rcases List.append_eq_nil.mp (List.append_eq_nil.mp hab.symm).1 with ⟨-, h2⟩
      exact h2
  | cons c rest ih =>
    simp only [hasSub, Bool.or_eq_true, isPre_iff, ih]
    constructor
    · rintro (⟨t, ht⟩ | ⟨a, b, rfl⟩)
      · exact ⟨[], t, by simpa using ht⟩
      · exact ⟨c :: a, b, by simp⟩
    · rintro ⟨a, b, hab⟩
      cases a with
      | nil => exact Or.inl ⟨b, by simpa using hab⟩
      | cons x xs =>
        right
        rw [List.cons_append, List.cons_append] at hab
        obtain ⟨-, h2⟩ := List.cons.injEq .. ▸ hab
        exact ⟨xs, b, by simp_all⟩

lemma stripTrailingSlashes_append (a n b : List Char) (hn : n ≠ [])
    (hsl : '/' ∉ n) :
    stripTrailingSlashes (a ++ n ++ b) = a ++ n ++ stripTrailingSlashes b := by
  obtain ⟨c, cs, hc⟩ : ∃ c cs, n.reverse = c :: cs := by
    cases hrev : n.reverse with
    | nil => exact absurd (by simpa using congrArg List.reverse hrev) hn
    | cons c cs => exact ⟨c, cs, rfl⟩
  have hcmem : c ∈ n := by
    have : c ∈ n.reverse := hc ▸ List.mem_cons_self c cs
    simpa using this
  have hcne : (c == '/') = false := by
    simp only [beq_eq_false_iff_ne, ne_eq]
    rintro rfl; exact hsl hcmem
  have hdropn : List.dropWhile (fun x => x == '/') (n.reverse ++ a.reverse)
      = n.reverse ++ a.reverse := by
    rw [hc, List.cons_append, List.dropWhile_cons, hcne]
    simp
  have hrev : (a ++ n ++ b).reverse = b.reverse ++ (n.reverse ++ a.reverse) := by
    simp
  unfold stripTrailingSlashes
  rw [hrev, List.dropWhile_append]
  by_cases hb : (List.dropWhile (fun x => x == '/') b.reverse).isEmpty = true
  · rw [if_pos hb, hdropn]
    have hbnil : List.dropWhile (fun x => x == '/') b.reverse = [] := by
      simpa [List.isEmpty_iff] using hb
    rw [hbnil]
    simp
  · rw [if_neg hb]
    simp

/-- Keyword containment survives trailing-slash stripping: a slash-free,
non-empty word occurs in a path iff it occurs in the normalized path. -/
lemma strHasSub_norm_path (w p : String) (hw : w.toList ≠ [])
    (hsl : '/' ∉ w.toList) :
    strHasSub w (norm_path p) = strHasSub w p := by
  have hsplit : stripTrailingSlashes p.toList
      ++ (p.toList.reverse.takeWhile (fun c => c == '/')).reverse = p.toList := by
    unfold stripTrailingSlashes
    rw [← List.reverse_append, List.takeWhile_append_dropWhile,
      List.reverse_reverse]
  apply Bool.eq_iff_iff.mpr
  show hasSub w.toList (stripTrailingSlashes p.toList) = true
    ↔ hasSub w.toList p.toList = true
  rw [hasSub_iff, hasSub_iff]
  constructor
  · rintro ⟨a, b, hab⟩
    refine ⟨a, b ++ (p.toList.reverse.takeWhile (fun c => c == '/')).reverse, ?_⟩
    calc p.toList
        = stripTrailingSlashes p.toList
          ++ (p.toList.reverse.takeWhile (fun c => c == '/')).reverse :=
        hsplit.symm
      _ = (a ++ w.toList ++ b)
          ++ (p.toList.reverse.takeWhile (fun c => c == '/')).reverse := by
        rw [hab]
      _ = a ++ w.toList
          ++ (b ++ (p.toList.reverse.takeWhile (fun c => c == '/')).reverse) := by
        simp [List.append_assoc]
  · rintro ⟨a, b, hab⟩
    exact ⟨a, stripTrailingSlashes b,
      by rw [hab, stripTrailingSlashes_append a w.toList b hw hsl]⟩

/-! ### Claim theorems -/

/-- C6: `isLoginOperation` accepts a path and optional mount type exactly
when the path, stripped of trailing slashes, is non-empty and ends with
`/login`, and either the path contains an orchestrator keyword
(`kubernetes`, `openshift`) or the mount type equals one of those; the
empty path is never a login. -/
theorem is_k8s_login_iff (path : String) (mt : Option String) :
    is_k8s_login path mt = true ↔
      (norm_path path ≠ "" ∧ strEndsWith "/login" (norm_path path) = true
        ∧ (K8S_WORDS.any (fun w => strHasSub w path) = true
            ∨ mt = some "kubernetes" ∨ mt = some "openshift")) := by
  have hk := strHasSub_norm_path "kubernetes" path (by decide) (by decide)
  have ho := strHasSub_norm_path "openshift" path (by decide) (by decide)
  simp only [is_k8s_login, K8S_WORDS, List.any_cons, List.any_nil,
    Bool.or_false, hk, ho]
  split_ifs with h1 h2 h3 <;>
    simp_all [Bool.or_eq_true, Bool.and_eq_true, beq_iff_eq]

/-- C7: `isSuccessfulResponse` holds exactly when the record type is
`response`, the error field is absent, empty or false, and the
HTTP-style status (from `response.status`, else `response.http_status`),
when present, equals 200; a record with no status counts as a success. -/
theorem status_ok_iff (e : Entry) :
    status_ok e = true ↔
      (e.type_ = "response"
        ∧ (e.error = ErrField.absent ∨ e.error = ErrField.strVal ""
            ∨ e.error = ErrField.boolVal false)
        ∧ (respStatus e = none
            ∨ ∃ v, respStatus e = some v ∧ statusToInt v = some 200)) := by
  have herr : errOk e.error = true ↔ (e.error = ErrField.absent
      ∨ e.error = ErrField.strVal "" ∨ e.error = ErrField.boolVal false) := by
    cases e.error <;> simp [errOk]
  unfold status_ok
  by_cases hT : e.type_ = "response"
  · rw [if_neg (by simp [hT])]
    by_cases hE : errOk e.error = true
    · rw [if_neg (by simp [hE])]
      cases hrs : respStatus e with
      | none => simp [hT, herr.mp hE]
      | some v =>
        cases hsi : statusToInt v with
        | none => simp [hT, herr.mp hE, hsi]
        | some n =>
          by_cases hn : n = 200 <;> simp [hT, herr.mp hE, hsi, hn]
    · rw [if_pos (by simpa using hE)]
      have hne : ¬(e.error = ErrField.absent ∨ e.error = ErrField.strVal ""
          ∨ e.error = ErrField.boolVal false) := fun h => hE (herr.mpr h)
      simp [hne]
  · rw [if_pos hT]
    simp [hT]

/-- C8: the label extractor is total and deterministic: with both a
service-account name and a namespace (priority chain) present it yields
`ns/sa`; with exactly one present it substitutes `(no-ns)` or `(no-sa)`;
with neither it falls back to the display name under `(no-ns)/`, and with
that empty too it yields no label. -/
theorem extract_sa_label_cases (e : Entry) :
    (saOf e ≠ "" → nsOf e ≠ "" →
      extract_sa_label e = some (nsOf e ++ "/" ++ saOf e))
    ∧ (saOf e ≠ "" → nsOf e = "" →
      extract_sa_label e = some ("(no-ns)" ++ "/" ++ saOf e))
    ∧ (saOf e = "" → nsOf e ≠ "" →
      extract_sa_label e = some (nsOf e ++ "/" ++ "(no-sa)"))
    ∧ (saOf e = "" → nsOf e = "" → dispOf e ≠ "" →
      extract_sa_label e = some ("(no-ns)/" ++ dispOf e))
    ∧ (saOf e = "" → nsOf e = "" → dispOf e = "" →
      extract_sa_label e = none) := by
  unfold extract_sa_label
  refine ⟨fun h1 h2 => ?_, fun h1 h2 => ?_, fun h1 h2 => ?_,
    fun h1 h2 h3 => ?_, fun h1 h2 h3 => ?_⟩ <;> simp_all

/-- C8 witness: both halves present on a concrete record. -/
theorem extract_sa_label_cases_witness :
    saOf (scenOk none) = "" ∧ nsOf (scenOk none) = ""
      ∧ dispOf (scenOk none) = "" ∧ extract_sa_label (scenOk none) = none :=
  ⟨by decide, by decide, by decide,
    (extract_sa_label_cases (scenOk none)).2.2.2.2 (by decide) (by decide)
      (by decide)⟩

/-- C10: every record on a login path that fails the success predicate —
in particular every record of type `request` — bumps the resolved
bucket's failure count, so `fail_count` counts all non-successful
login-path records, not only failed authentication responses. -/
theorem fail_count_nonsuccess :
    (∀ (st : AggState) (e : Entry),
        is_k8s_login (norm_path e.request.path) e.request.mount_type = true →
        status_ok e = false →
        ((processEntry st (some e)).mounts (mountKey e)).fail_count
          = (st.mounts (mountKey e)).fail_count + 1)
    ∧ (∀ e : Entry, e.type_ = "request" → status_ok e = false) := by
  constructor
  · intro st e hl hs
    simp [processEntry, hl, hs, updBucket, Function.update_same]
  · intro e ht
    unfold status_ok
    rw [if_pos (by simp [ht])]

/-- C1: a classified login event updates its mount bucket exactly as
specified — on success the success count is bumped, a present entity id
joins the set and its count is bumped, a present workload label has its
count bumped and (with an entity id) its entity set extended; otherwise
the failure count is bumped. The 5-failure/5-success scenario with 3
successes missing the entity id ends at successCount 5, failureCount 5,
two known entities, and per-entity counts summing to 2. -/
theorem aggregator_step_spec :
    (∀ (st : AggState) (e : Entry),
        is_k8s_login (norm_path e.request.path) e.request.mount_type = true →
        (status_ok e = true →
          ((processEntry st (some e)).mounts (mountKey e)).ok_count
            = (st.mounts (mountKey e)).ok_count + 1
          ∧ (∀ i, entityIdOf e = some i →
              ((processEntry st (some e)).mounts (mountKey e)).entity_ids
                = insert i (st.mounts (mountKey e)).entity_ids
              ∧ ((processEntry st (some e)).mounts (mountKey e)).per_entity_logins i
                = (st.mounts (mountKey e)).per_entity_logins i + 1)
          ∧ (∀ sa, extract_sa_label e = some sa →
              ((processEntry st (some e)).mounts (mountKey e)).per_sa_logins sa
                = (st.mounts (mountKey e)).per_sa_logins sa + 1
              ∧ (∀ i, entityIdOf e = some i →
                  ((processEntry st (some e)).mounts (mountKey e)).per_sa_entities sa
                    = insert i ((st.mounts (mountKey e)).per_sa_entities sa))))
        ∧ (status_ok e = false →
          ((processEntry st (some e)).mounts (mountKey e)).fail_count
            = (st.mounts (mountKey e)).fail_count + 1))
    ∧ (((run scenario).mounts "accK").ok_count = 5
      ∧ ((run scenario).mounts "accK").fail_count = 5
      ∧ ((run scenario).mounts "accK").entity_ids.card = 2
      ∧ Finset.sum ((run scenario).mounts "accK").entity_ids
          ((run scenario).mounts "accK").per_entity_logins = 2) := by
  constructor
  · intro st e hl
    have hm : (processEntry st (some e)).mounts (mountKey e)
        = updBucket e (st.mounts (mountKey e)) := by
      simp [processEntry, hl, Function.update_same]
    constructor
    · intro hs
      rw [hm]
      unfold updBucket
      rw [if_pos hs]
      refine ⟨?_, ?_, ?_⟩
      · cases hei : entityIdOf e <;> cases hsa : extract_sa_label e <;>
          simp [succUpdate, hei, hsa, incAt, insAt]
      · intro i hei
        cases hsa : extract_sa_label e <;>
          simp [succUpdate, hei, hsa, incAt, insAt, Function.update_same]
      · intro sa hsa
        refine ⟨?_, ?_⟩
        · cases hei : entityIdOf e <;>
            simp [succUpdate, hei, hsa, incAt, insAt, Function.update_same]
        · intro i hei
          simp [succUpdate, hei, hsa, incAt, insAt, Function.update_same]
    · intro hs
      rw [hm]
      simp [updBucket, hs]
  · exact ⟨by decide, by decide, by decide, by decide⟩

/-- C1 witness: a concrete successful login response with entity id on the
scenario mount bumps the success count from the initial state. -/
theorem aggregator_step_spec_witness :
    is_k8s_login (norm_path (scenOk (some "entityA")).request.path)
        (scenOk (some "entityA")).request.mount_type = true
      ∧ status_ok (scenOk (some "entityA")) = true
      ∧ ((processEntry initState (some (scenOk (some "entityA")))).mounts
            (mountKey (scenOk (some "entityA")))).ok_count
        = (initState.mounts (mountKey (scenOk (some "entityA")))).ok_count + 1 :=
  ⟨by decide, by decide,
    ((aggregator_step_spec.1 initState (scenOk (some "entityA"))
      (by decide)).1 (by decide)).1⟩

/-- C10 witness: the request half of a successful login pair counts as a
failure on the scenario mount. -/
theorem fail_count_nonsuccess_witness :
    status_ok scenFail = false
      ∧ ((processEntry initState (some scenFail)).mounts
          (mountKey scenFail)).fail_count
        = (initState.mounts (mountKey scenFail)).fail_count + 1 := by
  have h2 := fail_count_nonsuccess.2 scenFail rfl
  exact ⟨h2, fail_count_nonsuccess.1 initState scenFail (by decide) h2⟩

/-- One aggregation step preserves the C5 invariant. -/
lemma inv_step (st : AggState) (pe : Option Entry) (h : Inv st) :
    Inv (processEntry st pe) := by
  cases pe with
  | none => simpa [processEntry, Inv] using h
  | some e =>
    by_cases hl : is_k8s_login (norm_path e.request.path) e.request.mount_type = true
    · intro k
      by_cases hk : k = mountKey e
      · have hm : (processEntry st (some e)).mounts k
            = updBucket e (st.mounts k) := by
          subst hk
          simp [processEntry, hl, Function.update_same]
        rw [hm]
        unfold updBucket
        by_cases hs : status_ok e = true
        · rw [if_pos hs]
          obtain ⟨hmem, hsum⟩ := h k
          cases hei : entityIdOf e with
          | none =>
            cases hsa : extract_sa_label e <;>
              · simp only [succUpdate, hei, hsa, incAt, insAt]
                exact ⟨hmem, hsum.trans (Nat.le_succ _)⟩
          | some i =>
            have hfields :
                ((match extract_sa_label e with
                  | none => fun b : Bucket => b
                  | some _ => fun b : Bucket => b) = fun b : Bucket => b) := by
              cases extract_sa_label e <;> rfl
            have key : ∀ (b : Bucket),
                (∀ j, b.per_entity_logins j ≠ 0 → j ∈ b.entity_ids) →
                Finset.sum b.entity_ids b.per_entity_logins ≤ b.ok_count →
                (∀ j, Function.update b.per_entity_logins i
                    (b.per_entity_logins i + 1) j ≠ 0 →
                  j ∈ insert i b.entity_ids)
                ∧ Finset.sum (insert i b.entity_ids)
                    (Function.update b.per_entity_logins i
                      (b.per_entity_logins i + 1))
                  ≤ b.ok_count + 1 := by
              intro b hbmem hbsum
              constructor
              · intro j hj
                rcases eq_or_ne j i with rfl | hji
                · exact Finset.mem_insert_self j _
                · rw [Function.update_noteq hji] at hj
                  exact Finset.mem_insert_of_mem (hbmem j hj)
              · by_cases hi : i ∈ b.entity_ids
                · rw [Finset.insert_eq_self.mpr hi]
                  have h1 : Finset.sum b.entity_ids
                      (Function.update b.per_entity_logins i
                        (b.per_entity_logins i + 1))
                      = (b.per_entity_logins i + 1)
                        + Finset.sum (b.entity_ids.erase i) b.per_entity_logins := by
                    conv_lhs => rw [← Finset.insert_erase hi]
                    rw [Finset.sum_insert (Finset.not_mem_erase i _),
                      Function.update_same]
                    congr 1
                    refine Finset.sum_congr rfl ?_
                    intro x hx
                    exact Function.update_noteq (Finset.ne_of_mem_erase hx) _ _
                  have h2 : b.per_entity_logins i
                      + Finset.sum (b.entity_ids.erase i) b.per_entity_logins
                      = Finset.sum b.entity_ids b.per_entity_logins :=
                    Finset.add_sum_erase b.entity_ids b.per_entity_logins hi
                  omega
                · rw [Finset.sum_insert hi, Function.update_same]
                  have hrest : Finset.sum b.entity_ids
                      (Function.update b.per_entity_logins i
                        (b.per_entity_logins i + 1))
                      = Finset.sum b.entity_ids b.per_entity_logins := by
                    refine Finset.sum_congr rfl ?_
                    intro x hx
                    refine Function.update_noteq ?_ _ _
                    rintro rfl
                    exact hi hx
                  have hzero : b.per_entity_logins i = 0 := by
                    by_contra hnz
                    exact hi (hbmem i hnz)
                  rw [hrest, hzero]
                  omega
            cases hsa : extract_sa_label e with
            | none =>
              simp only [succUpdate, hei, hsa, incAt, insAt]
              exact key _ (h k).1 (h k).2
            | some sa =>
              simp only [succUpdate, hei, hsa, incAt, insAt]
              exact key _ (h k).1 (h k).2
        · rw [if_neg hs]
          obtain ⟨hmem, hsum⟩ := h k
          exact ⟨hmem, hsum.trans (Nat.le_refl _)⟩
      · have hm : (processEntry st (some e)).mounts k = st.mounts k := by
          simp [processEntry, hl, Function.update_noteq hk]
        rw [hm]
        exact h k
    · intro k
      have hm : (processEntry st (some e)).mounts k = st.mounts k := by
        simp [processEntry, hl]
      rw [hm]
      exact h k

/-- C5: after every processed input line, every bucket satisfies: entity
ids with a recorded login count are members of the entity-id set, and the
success count is at least the sum of the recorded per-entity counts. -/
theorem aggregator_invariant (l : List (Option Entry)) : Inv (run l) := by
  have hinit : Inv initState := by
    intro k
    refine ⟨fun i hi => absurd rfl hi, ?_⟩
    simp [initState, emptyBucket]
  suffices h : ∀ st : AggState, Inv st → Inv (List.foldl processEntry st l) by
    exact h initState hinit
  induction l with
  | nil => intro st h; simpa using h
  | cons x xs ih =>
    intro st h
    exact ih (processEntry st x) (inv_step st x h)

/-- C5 witness: the invariant at the end of the concrete scenario run. -/
theorem aggregator_invariant_witness : Inv (run scenario) :=
  aggregator_invariant scenario

/-- C9: the record normalizer never fails past its boundary — when the
stripped line has no `{` the parse yields nothing, and each line either
parses (parsed counter + 1) or is skipped (skip counter + 1) with the
aggregation state untouched. -/
theorem normalizer_dichotomy (loads : String → Option Entry) (st : AggState)
    (s : String) :
    (firstBraceSuffix (pyStrip s) = none → coerce_json loads (pyStrip s) = none)
    ∧ ((∃ e, coerce_json loads (pyStrip s) = some e
          ∧ (processLine loads st s).totals.parsed = st.totals.parsed + 1
          ∧ (processLine loads st s).totals.skipped = st.totals.skipped)
      ∨ (coerce_json loads (pyStrip s) = none
          ∧ (processLine loads st s).totals.skipped = st.totals.skipped + 1
          ∧ (processLine loads st s).totals.parsed = st.totals.parsed
          ∧ (processLine loads st s).mounts = st.mounts)) := by
  constructor
  · intro h
    simp [coerce_json, h]
  · cases hc : coerce_json loads (pyStrip s) with
    | none =>
      right
      refine ⟨rfl, ?_, ?_, ?_⟩ <;> simp [processLine, hc, processEntry]
    | some e =>
      left
      refine ⟨e, rfl, ?_, ?_⟩ <;>
        · by_cases hl : is_k8s_login (norm_path e.request.path)
              e.request.mount_type = true <;>
            by_cases hs : status_ok e = true <;>
            simp [processLine, hc, processEntry, hl, hs]

/-- C9 witness: a malformed line with no object start is skipped and
leaves the mounts table unchanged. -/
theorem normalizer_dichotomy_witness :
    firstBraceSuffix (pyStrip "not-json") = none
      ∧ coerce_json (fun _ => none) (pyStrip "not-json") = none :=
  ⟨by decide,
    (normalizer_dichotomy (fun _ => none) initState "not-json").1 (by decide)⟩

/-! ### Merge algebra for parallel partial aggregation -/

lemma dispKeep_assoc (x y z : Option String) :
    dispKeep (dispKeep x y) z = dispKeep x (dispKeep y z) := by
  cases x <;> rfl

lemma dispKeep_none (x : Option String) : dispKeep x none = x := by
  cases x <;> rfl

lemma incAt_merge (f g : String → Nat) (k : String) :
    incAt (fun x => f x + g x) k = fun x => f x + incAt g k x := by
  funext x
  by_cases hx : x = k
  · subst hx
    simp [incAt, Function.update_same, Nat.add_assoc]
  · simp [incAt, Function.update_noteq hx]

lemma insAt_merge (f g : String → Finset String) (k i : String) :
    insAt (fun x => f x ∪ g x) k i = fun x => f x ∪ insAt g k i x := by
  funext x
  by_cases hx : x = k
  · subst hx
    simp [insAt, Function.update_same, Finset.union_insert]
  · simp [insAt, Function.update_noteq hx]

/-- The per-record bucket mutation commutes with merging an earlier
partial bucket on the left. -/
lemma updBucket_merge (e : Entry) (a b : Bucket) :
    updBucket e (mergeBucket a b) = mergeBucket a (updBucket e b) := by
  unfold updBucket
  by_cases hs : status_ok e = true
  · rw [if_pos hs, if_pos hs]
    unfold succUpdate
    cases hei : entityIdOf e <;> cases hsa : extract_sa_label e <;>
      · refine Bucket.ext ?_ ?_ ?_ ?_ ?_ ?_ ?_ <;>
          simp [mergeBucket, dispKeep_assoc, incAt_merge, insAt_merge,
            Finset.union_insert, Nat.add_assoc]
  · rw [if_neg hs, if_neg hs]
    refine Bucket.ext ?_ ?_ ?_ ?_ ?_ ?_ ?_ <;>
      simp [mergeBucket, dispKeep_assoc, Nat.add_assoc]

/-- One aggregation step on a merged state equals merging the untouched
left part with the stepped right part. -/
lemma processEntry_merge (s t : AggState) (pe : Option Entry) :
    processEntry (mergeState s t) pe = mergeState s (processEntry t pe) := by
  cases pe with
  | none =>
    refine AggState.ext ?_ ?_
    · refine Totals.ext ?_ ?_ ?_ ?_ ?_ <;>
        simp [processEntry, mergeState, mergeTotals, Nat.add_assoc]
    · funext k
      simp [processEntry, mergeState]
  | some e =>
    by_cases hl : is_k8s_login (norm_path e.request.path) e.request.mount_type = true
    · refine AggState.ext ?_ ?_
      · by_cases hs : status_ok e = true <;>
          · refine Totals.ext ?_ ?_ ?_ ?_ ?_ <;>
              simp [processEntry, mergeState, mergeTotals, hl, hs, Nat.add_assoc]
      · funext k
        by_cases hk : k = mountKey e
        · subst hk
          simp only [processEntry, hl, if_true, mergeState]
          rw [Function.update_same, Function.update_same]
          exact updBucket_merge e (s.mounts (mountKey e)) (t.mounts (mountKey e))
        · simp only [processEntry, hl, if_true, mergeState]
          rw [Function.update_noteq hk, Function.update_noteq hk]
    · refine AggState.ext ?_ ?_
      · refine Totals.ext ?_ ?_ ?_ ?_ ?_ <;>
          simp [processEntry, mergeState, mergeTotals, hl, Nat.add_assoc]
      · funext k
        simp [processEntry, mergeState, hl]

lemma foldl_processEntry_merge (l : List (Option Entry)) :
    ∀ s t : AggState, List.foldl processEntry (mergeState s t) l
      = mergeState s (List.foldl processEntry t l) := by
  induction l with
  | nil => intro s t; rfl
  | cons x xs ih =>
    intro s t
    rw [List.foldl_cons, List.foldl_cons, processEntry_merge, ih]

/-- The empty state is a right identity of the merge. -/
lemma mergeState_init (s : AggState) : mergeState s initState = s := by
  refine AggState.ext ?_ ?_
  · refine Totals.ext ?_ ?_ ?_ ?_ ?_ <;> simp [mergeState, mergeTotals, initState]
  · funext k
    show mergeBucket (s.mounts k) emptyBucket = s.mounts k
    refine Bucket.ext ?_ ?_ ?_ ?_ ?_ ?_ ?_ <;>
      simp [mergeBucket, emptyBucket, dispKeep_none]

/-- Aggregating a concatenation equals merging the two partial runs. -/
lemma run_append (l1 l2 : List (Option Entry)) :
    run (l1 ++ l2) = mergeState (run l1) (run l2) := by
  unfold run
  rw [List.foldl_append]
  have h := foldl_processEntry_merge l2 (List.foldl processEntry initState l1)
    initState
  rw [mergeState_init] at h
  exact h

/-- Aggregating any flattened partition equals merging the partial runs. -/
lemma run_flatten (L : List (List (Option Entry))) :
    run L.flatten = mergeList (L.map run) := by
  induction L with
  | nil => rfl
  | cons p ps ih =>
    show run (p ++ ps.flatten) = mergeState (run p) (mergeList (ps.map run))
    rw [run_append, ih]

/-- The line-level pass is the record-level pass over the decoded lines. -/
lemma runLines_eq (loads : String → Option Entry) (ls : List String) :
    runLines loads ls
      = run (ls.map (fun s => coerce_json loads (pyStrip s))) := by
  unfold runLines run processLine
  rw [List.foldl_map]

/-- C2: one-pass aggregation of any partitioned line sequence equals
independent per-partition aggregation followed by key-by-key count-sum /
set-union merging, and bucket merging is order-insensitive on the claimed
observables (commutative up to them, and associative). -/
theorem aggregate_partition_merge :
    (∀ (loads : String → Option Entry) (parts : List (List String)),
        (runLines loads parts.flatten).mounts
          = (mergeList (parts.map (runLines loads))).mounts)
    ∧ (∀ a b : Bucket, BucketObs (mergeBucket a b) (mergeBucket b a))
    ∧ (∀ a b c : Bucket,
        mergeBucket (mergeBucket a b) c = mergeBucket a (mergeBucket b c)) := by
  refine ⟨?_, ?_, ?_⟩
  · intro loads parts
    rw [runLines_eq, List.map_flatten, run_flatten, List.map_map]
    have hmaps : List.map
          (run ∘ List.map fun s => coerce_json loads (pyStrip s)) parts
        = List.map (runLines loads) parts := by
      refine List.map_congr_left ?_
      intro p _
      exact (runLines_eq loads p).symm
    rw [hmaps]
  · intro a b
    exact ⟨Nat.add_comm .., Nat.add_comm .., Finset.union_comm ..,
      funext fun x => Nat.add_comm .., funext fun x => Nat.add_comm ..,
      funext fun x => Finset.union_comm ..⟩
  · intro a b c
    refine Bucket.ext ?_ ?_ ?_ ?_ ?_ ?_ ?_ <;>
      simp [mergeBucket, dispKeep_assoc, Finset.union_assoc, Nat.add_assoc]

/-- C3: the p95 statistic of a non-empty list of login counts is the entry
of the ascending sort at `round(0.95 * (n - 1))` clamped to `[0, n - 1]`,
and it depends only on the multiset of counts: any reordering gives the
same value. -/
theorem p95_nearest_rank (counts : List Nat) (h : counts ≠ []) :
    (∀ l' : List Nat, counts.Perm l' → l'.Sorted (· ≤ ·) →
      p95 counts = l'.getD (p95Idx counts.length) 0)
    ∧ (∀ l' : List Nat, counts.Perm l' → p95 counts = p95 l') := by
  constructor
  · intro l' hperm hsort
    have hsorted : List.Sorted (· ≤ ·) (List.insertionSort (· ≤ ·) counts) :=
      List.sorted_insertionSort _ _
    have hp : (List.insertionSort (· ≤ ·) counts).Perm l' :=
      (List.perm_insertionSort _ _).trans hperm
    have heq : List.insertionSort (· ≤ ·) counts = l' :=
      List.eq_of_perm_of_sorted hp hsorted hsort
    unfold p95
    rw [heq]
  · intro l' hperm
    have hlen : counts.length = l'.length := hperm.length_eq
    have hp : (List.insertionSort (· ≤ ·) counts).Perm
        (List.insertionSort (· ≤ ·) l') :=
      (List.perm_insertionSort _ _).trans
        (hperm.trans (List.perm_insertionSort _ l').symm)
    have heq := List.eq_of_perm_of_sorted hp
      (List.sorted_insertionSort _ _) (List.sorted_insertionSort _ _)
    unfold p95
    rw [heq, hlen]

/-- C3 witness: the nearest-rank value and order independence on a
concrete 3-element list. -/
theorem p95_nearest_rank_witness :
    ([3, 1, 2] : List Nat) ≠ []
      ∧ p95 [3, 1, 2] = List.getD [1, 2, 3] (p95Idx (List.length [3, 1, 2])) 0
      ∧ p95 [3, 1, 2] = p95 [2, 3, 1] :=
  ⟨by decide,
    (p95_nearest_rank [3, 1, 2] (by decide)).1 [1, 2, 3] (by decide) (by decide),
    (p95_nearest_rank [3, 1, 2] (by decide)).2 [2, 3, 1] (by decide)⟩

/-- `per_sa_entities` without members contributes no counts. -/
lemma diagCounts_of_empty (b : Bucket) (sa : String)
    (h : b.per_sa_entities sa = ∅) : diagCounts b sa = 0 := by
  simp [diagCounts, h]

/-- C4: the diagnostics pass emits a row for a (bucket, label) pair iff
the pair has at least one recorded per-entity login count and at least
one flag fires; `SINGLETON_HEAVY` is present iff the singleton ratio
reaches 0.80 and `HIGH_P95` iff the p95 reaches 10, independently; a pair
with no recorded entities yields no row (and no division is attempted). -/
theorem diagRow_iff (b : Bucket) (sa : String) :
    ((diagRow b sa).isSome = true ↔
      (diagCounts b sa ≠ 0
        ∧ (SINGLETON_RATIO_THRESHOLD ≤ saRatio b sa
            ∨ P95_LOGIN_THRESHOLD ≤ saP95 b sa)))
    ∧ (∀ r : DiagRow, diagRow b sa = some r →
        (("SINGLETON_HEAVY" ∈ r.flags
            ↔ SINGLETON_RATIO_THRESHOLD ≤ saRatio b sa)
          ∧ ("HIGH_P95" ∈ r.flags ↔ P95_LOGIN_THRESHOLD ≤ saP95 b sa)))
    ∧ (b.per_sa_entities sa = ∅ → diagRow b sa = none) := by
  have hne : ("SINGLETON_HEAVY" : String) ≠ "HIGH_P95" := by decide
  by_cases hC : diagCounts b sa = 0
  · refine ⟨?_, ?_, ?_⟩
    · simp [diagRow, hC]
    · intro r hr
      simp [diagRow, hC] at hr
    · intro h0
      simp [diagRow, hC]
  · have hzero : ¬(b.per_sa_entities sa = ∅) := fun h0 =>
      hC (diagCounts_of_empty b sa h0)
    by_cases hA : SINGLETON_RATIO_THRESHOLD ≤ saRatio b sa <;>
      by_cases hB : P95_LOGIN_THRESHOLD ≤ saP95 b sa
    · refine ⟨by simp [diagRow, hC, hA, hB], ?_, fun h0 => absurd h0 hzero⟩
      intro r hr
      simp [diagRow, hC, hA, hB] at hr
      rw [← hr]
      simp [hA, hB, hne]
    · refine ⟨by simp [diagRow, hC, hA, hB], ?_, fun h0 => absurd h0 hzero⟩
      intro r hr
      simp [diagRow, hC, hA, hB] at hr
      rw [← hr]
      simp [hA, hB, hne]
    · refine ⟨by simp [diagRow, hC, hA, hB], ?_, fun h0 => absurd h0 hzero⟩
      intro r hr
      simp [diagRow, hC, hA, hB] at hr
      rw [← hr]
      simp [hA, hB, hne.symm]
    · refine ⟨by simp [diagRow, hC, hA, hB], ?_, fun h0 => absurd h0 hzero⟩
      intro r hr
      simp [diagRow, hC, hA, hB] at hr

/-- C4 witness: a pair with no recorded entities emits no row. -/
theorem diagRow_iff_witness :
    emptyBucket.per_sa_entities "prod/svc" = ∅
      ∧ diagRow emptyBucket "prod/svc" = none :=
  ⟨rfl, (diagRow_iff emptyBucket "prod/svc").2.2 rfl⟩

end VaultChurn
